import Mathlib

/-!
Verification of the Virtual-Input repository against its specification.

Part 1 embeds the packaging logic of `setup.py` (the only source file):
`read_readme`, `get_version`, `get_platform_dependencies`.  The Python
string primitives used there (`split`, `strip`, `startswith`, `lower`)
are embedded as structurally recursive functions on character lists.

Part 2 models the Motion Synthesis Engine (ghost tracker, Bézier path
generator, timing model, typeText) from the specification, since its
source is not part of the repository snapshot.  Float64 arithmetic is
modelled as exact rational arithmetic; non-finite float values (NaN,
±Infinity) are modelled explicitly where a claim depends on them.
-/

/-- Python exception outcomes relevant to `setup.py`. -/
inductive PyExc where
  | fileNotFoundError
  | indexError
  | otherError
deriving DecidableEq

/-- Outcome of `open("README.md")`: succeeds with the file content,
raises `FileNotFoundError`, or raises some other exception. -/
inductive OpenResult where
  | ok (content : String)
  | fileNotFound
  | otherFailure (e : PyExc)
deriving DecidableEq

/-- The literal fallback string in `read_readme` (setup.py line 15). -/
def readmeFallback : String :=
  "Cross-platform virtual mouse and keyboard with ghost coordinates and Bézier curves"

/-- Embedding of `read_readme` (setup.py lines 10-15): returns the file
content when the open succeeds, the fallback string on
`FileNotFoundError`, and propagates any other exception. -/
def read_readme (r : OpenResult) : Except PyExc String :=
  match r with
  | .ok content => .ok content
  | .fileNotFound => .ok readmeFallback
  | .otherFailure e => .error e

/-- Python `str.split(sep)` for a single-character separator, on a
character list: splits at every occurrence of `sep`, keeping empty
fields, and returns `[[]]` on the empty string (as Python does). -/
def splitOnChar (sep : Char) : List Char → List (List Char)
  | [] => [[]]
  | c :: cs =>
    match splitOnChar sep cs with
    | [] => if c == sep then [[], []] else [[c]]
    | h :: t => if c == sep then [] :: h :: t else (c :: h) :: t

/-- Python `s.split(sep)` for a single-character separator. -/
def pySplit (sep : Char) (s : String) : List String :=
  (splitOnChar sep s.data).map (fun l => ⟨l⟩)

/-- Python `str.isspace` characters in the ASCII range (the characters
stripped by `str.strip()` with no argument). -/
def pyIsSpace (c : Char) : Bool :=
  c = ' ' || c = '\t' || c = '\n' || c = '\r' || c = '\x0b' || c = '\x0c'

/-- Strip characters satisfying `p` from both ends of a character list. -/
def stripWhile (p : Char → Bool) (l : List Char) : List Char :=
  ((l.dropWhile p).reverse.dropWhile p).reverse

/-- Python `s.strip()`: strip whitespace from both ends. -/
def pyStrip (s : String) : String := ⟨stripWhile pyIsSpace s.data⟩

/-- Python `s.strip(c)` for a single character: strip all leading and
trailing occurrences of `c`. -/
def pyStripChar (c : Char) (s : String) : String :=
  ⟨stripWhile (fun a => a == c) s.data⟩

/-- Python `s.startswith(pre)`. -/
def pyStartsWith (pre s : String) : Bool :=
  pre.data.isPrefixOf s.data

/-- Python `str.lower` on one ASCII character. -/
def asciiLower (c : Char) : Char :=
  if c.toNat ≥ 65 ∧ c.toNat ≤ 90 then Char.ofNat (c.toNat + 32) else c

/-- Python `s.lower()` (ASCII range, which covers every
`platform.system()` value). -/
def pyLower (s : String) : String := ⟨s.data.map asciiLower⟩

/-- The single-quote character (used because `get_version` strips it). -/
def singleQuote : Char := Char.ofNat 39

/-- The transformation setup.py line 22 applies to `line.split("=")[1]`:
`.strip().strip(double-quote).strip(single-quote)`. -/
def versionFieldClean (t : String) : String :=
  pyStripChar singleQuote (pyStripChar '"' (pyStrip t))

/-- Embedding of the loop body of `get_version` (setup.py lines 20-23):
scan the lines, and on the first one starting with `__version__` return
`line.split("=")[1]` cleaned; Python raises `IndexError` when that line
has no `=`.  If no line matches, return `"1.0.0"`. -/
def findVersionLine : List String → Except PyExc String
  | [] => .ok "1.0.0"
  | l :: ls =>
    if pyStartsWith "__version__" l then
      match (pySplit '=' l).get? 1 with
      | some t => .ok (versionFieldClean t)
      | none => .error .indexError
    else findVersionLine ls

/-- Embedding of `get_version` (setup.py lines 17-23).  The file
`virtualinput/__init__.py` is modelled by its list of lines (`none` when
the file does not exist, in which case the `open` call raises and the
exception propagates unhandled). -/
def get_version (file : Option (List String)) : Except PyExc String :=
  match file with
  | none => .error .fileNotFoundError
  | some lines => findVersionLine lines

/-- The `macos` extras list (setup.py lines 27-30). -/
def macosDeps : List String :=
  ["pyobjc-framework-Cocoa>=9.0", "pyobjc-framework-Quartz>=9.0"]

/-- The `dev` extras list (setup.py lines 32-37). -/
def devDeps : List String :=
  ["pytest>=7.0.0", "black>=22.0.0", "build>=0.8.0", "twine>=4.0.0"]

/-- The `extras_require` dict literal (setup.py lines 26-38), as an
ordered association list. -/
def extras_require : List (String × List String) :=
  [("macos", macosDeps), ("windows", []), ("dev", devDeps)]

/-- Embedding of `get_platform_dependencies` (setup.py lines 25-46).
`system` is the value of `platform.system()`.  The function is total: it
raises nothing on any platform string; `install_requires` receives the
macos extras exactly when `platform.system().lower() == "darwin"` and
stays empty otherwise. -/
def get_platform_dependencies (system : String) :
    List String × List (String × List String) :=
  (if pyLower system = "darwin" then macosDeps else [], extras_require)

/-- Stated from the C9 claim's wording: the text after the FIRST `=` of
the line (everything beyond the first separator), before cleaning — for
comparison with what the code computes. -/
def textAfterFirstEq (s : String) : Option String :=
  match s.data.dropWhile (fun c => !(c == '=')) with
  | [] => none
  | _ :: rest => some ⟨rest⟩

/-! ## Theorems for the setup.py claims -/

/-- C8: `read_readme` returns the full README text when the file opens,
and the literal fallback string when opening raises `FileNotFoundError`;
no other outcome occurs in those two cases. -/
theorem read_readme_cases (content : String) :
    read_readme (.ok content) = .ok content ∧
    read_readme .fileNotFound = .ok readmeFallback := by
  exact ⟨rfl, rfl⟩

/-- C10: `get_platform_dependencies` always returns the extras dict with
exactly the keys `macos`, `windows`, `dev` (with `windows` mapped to the
empty list), and `install_requires` equals the macos extras when the
platform string lowercases to `darwin`, and is empty on every other
platform. -/
theorem get_platform_dependencies_spec (system : String) :
    (get_platform_dependencies system).2.map Prod.fst = ["macos", "windows", "dev"] ∧
    (get_platform_dependencies system).2.lookup "windows" = some [] ∧
    (pyLower system = "darwin" → (get_platform_dependencies system).1 = macosDeps) ∧
    (pyLower system ≠ "darwin" → (get_platform_dependencies system).1 = []) := by
  refine ⟨rfl, rfl, fun h => ?_, fun h => ?_⟩
  · simp [get_platform_dependencies, h]
  · simp [get_platform_dependencies, h]

/-- C10 witness: concrete evaluation on the platform strings `Darwin`
and `Linux`. -/
theorem get_platform_dependencies_spec_witness :
    (get_platform_dependencies "Darwin").1 = macosDeps ∧
    (get_platform_dependencies "Linux").1 = [] := by
  exact ⟨(get_platform_dependencies_spec "Darwin").2.2.1 (by decide),
         (get_platform_dependencies_spec "Linux").2.2.2 (by decide)⟩

/-- C1 counterexample: on the unsupported platform string `"Linux"`
(a real `platform.system()` value, and not among the supported OSes in
the package classifiers), `get_platform_dependencies` does not fail: it
returns normally with an empty `install_requires`, so startup proceeds
silently, contradicting the claimed fatal `UnsupportedPlatform`
failure. -/
theorem get_platform_dependencies_no_failure_on_linux :
    get_platform_dependencies "Linux" = ([], extras_require) := by
  exact rfl

/-- C1 (amended): platform selection in `setup.py` never fails: for
every platform string that does not lowercase to `darwin` (supported or
not), `get_platform_dependencies` proceeds silently, returning an empty
`install_requires` with the unchanged extras dict; no
`UnsupportedPlatform` error exists. -/
theorem get_platform_dependencies_total (system : String)
    (h : pyLower system ≠ "darwin") :
    get_platform_dependencies system = ([], extras_require) := by
  simp [get_platform_dependencies, h]

/-- C1 witness: concrete evaluation on the platform string `Windows`. -/
theorem get_platform_dependencies_total_witness :
    get_platform_dependencies "Windows" = ([], extras_require) := by
  exact get_platform_dependencies_total "Windows" (by decide)

/-- C9 counterexample: on the file line `__version__ = "1=0"`, the code
returns `"1"` (the field between the first and second `=`), while the
claimed "text after the first `=`" cleans to `"1=0"`; the two differ. -/
theorem get_version_counterexample :
    get_version (some ["__version__ = \"1=0\"\n"]) = .ok "1" ∧
    (textAfterFirstEq "__version__ = \"1=0\"\n").map versionFieldClean = some "1=0" ∧
    ("1" : String) ≠ "1=0" := by
  refine ⟨rfl, rfl, by decide⟩

/-- C9 (amended): `get_version` raises `FileNotFoundError` when
`virtualinput/__init__.py` is missing (no default is returned); returns
`"1.0.0"` when no line starts with `__version__`; and on the first line
starting with `__version__`, provided that line contains a `=`, returns
the text BETWEEN the first and second `=` (field 1 of the `=`-split)
with surrounding whitespace and single/double quotes stripped. -/
theorem get_version_spec (lines : List String) :
    get_version none = .error .fileNotFoundError ∧
    ((∀ l ∈ lines, pyStartsWith "__version__" l = false) →
      get_version (some lines) = .ok "1.0.0") ∧
    (∀ pre l post, lines = pre ++ l :: post →
      (∀ l2 ∈ pre, pyStartsWith "__version__" l2 = false) →
      pyStartsWith "__version__" l = true →
      ∀ t, (pySplit '=' l).get? 1 = some t →
      get_version (some lines) = .ok (versionFieldClean t)) := by
  refine ⟨rfl, ?_, ?_⟩
  · intro hnone
    show findVersionLine lines = .ok "1.0.0"
    induction lines with
    | nil => rfl
    | cons l ls ih =>
      have hl : pyStartsWith "__version__" l = false := hnone l (by simp)
      simp only [findVersionLine, hl, Bool.false_eq_true, if_false]
      exact ih (fun x hx => hnone x (by simp [hx]))
  · intro pre l post hsplit hpre hl t ht
    subst hsplit
    show findVersionLine (pre ++ l :: post) = .ok (versionFieldClean t)
    induction pre with
    | nil =>
      simp only [List.nil_append, findVersionLine, hl, if_true, ht]
    | cons p ps ih =>
      have hp : pyStartsWith "__version__" p = false := hpre p (by simp)
      simp only [List.cons_append, findVersionLine, hp, Bool.false_eq_true, if_false]
      exact ih (fun x hx => hpre x (by simp [hx]))

/-- C9 witness: concrete evaluation of all three amended branches. -/
theorem get_version_spec_witness :
    get_version none = .error .fileNotFoundError ∧
    get_version (some ["import os\n"]) = .ok "1.0.0" ∧
    get_version (some ["__version__ = \"2.5.1\"\n"]) = .ok "2.5.1" := by
  refine ⟨(get_version_spec []).1, ?_, ?_⟩
  · exact (get_version_spec ["import os\n"]).2.1 (by decide)
  · have h := (get_version_spec ["__version__ = \"2.5.1\"\n"]).2.2
      [] "__version__ = \"2.5.1\"\n" [] rfl (by simp) (by decide)
      " \"2.5.1\"\n" (by rfl)
    exact h

/-! ## Part 2: Motion Synthesis Engine, modelled from the specification

The engine package `virtualinput/` is absent from the repository
snapshot (only `setup.py` refers to it), so the definitions below are
modelled from spec sections 3, 4.1-4.3, 4.5 and 6. -/

/-- Modelled from the spec: Geometry Primitives — an immutable `Point`
of float64 coordinates, with float64 values modelled as exact
rationals. -/
structure Point where
  x : ℚ
  y : ℚ
deriving DecidableEq

/-- Modelled from the spec: a float64 value as seen by the Ghost
Coordinate Tracker's finite-number check — either finite (an exact
rational) or one of the non-finite values NaN, +Infinity, -Infinity. -/
inductive FloatVal where
  | finite (val : ℚ)
  | nan
  | posInf
  | negInf
deriving DecidableEq

/-- The finite-number check on a float value. -/
def FloatVal.isFinite : FloatVal → Bool
  | .finite _ => true
  | .nan => false
  | .posInf => false
  | .negInf => false

/-- Modelled from the spec: a point as submitted to `commit`, whose
coordinates may be non-finite floats. -/
structure RawPoint where
  x : FloatVal
  y : FloatVal
deriving DecidableEq

/-- Modelled from the spec (§7): the Ghost Coordinate Tracker's
validation error. -/
inductive TrackerError where
  | invalidCoordinate
deriving DecidableEq

/-- Modelled from the spec (§4.1): `commit(p)` sets the tracker state to
`p` — the `.ok` value is the new stored state; the only validation is
the finite-number check, rejecting NaN/Infinity coordinates with
`InvalidCoordinate`. -/
def commit (p : RawPoint) : Except TrackerError RawPoint :=
  if p.x.isFinite && p.y.isFinite then .ok p else .error .invalidCoordinate

/-- Modelled from the spec (§7): the geometry error of the Bézier Path
Generator. -/
inductive MotionError where
  | degenerateMotion
deriving DecidableEq

/-- Modelled from the spec (§3): one timed sample of a path. -/
structure PathSample where
  position : Point
  tOffset : ℚ
deriving DecidableEq

/-- Modelled from the spec (§4.3): the smoothstep ease-in-ease-out curve
`3u² - 2u³`, the spec's named easing function. -/
def smoothstep (u : ℚ) : ℚ := u * u * (3 - 2 * u)

/-- Modelled from the spec (§4.3): `map(u, duration, jitterConfig) ->
tOffset`, with the default jitter configuration `jitterMs = [0,0]` (§6):
the elapsed time is the eased fraction of the requested duration. -/
def timingMap (u duration : ℚ) : ℚ := duration * smoothstep u

/-- Modelled from the spec (§4.2 step 2): `clamp` on sample counts. -/
def clampNat (v lo hi : ℕ) : ℕ := max lo (min v hi)

/-- Modelled from the spec (§4.2 step 2): the sample count
`n = clamp(round(d / pixelsPerSample), minSamples, maxSamples)`, where
`d` is the straight-line distance. -/
def sampleCount (d pps : ℚ) (minSamples maxSamples : ℕ) : ℕ :=
  clampNat (round (d / pps)).toNat minSamples maxSamples

/-- Modelled from the spec (§4.2 step 3): the interior control point of
the quadratic Bézier — the midpoint of the straight line, offset
perpendicular to the direction of travel.  `o` is the sampled random
offset as a fraction of the travel distance: the perpendicular vector
used here has length `d`, so the pixel offset magnitude is `|o| * d`,
within the spec's `[-curviness*d, curviness*d]` exactly when
`|o| ≤ curviness`. -/
def controlPoint (start target : Point) (o : ℚ) : Point :=
  { x := (start.x + target.x) / 2 - o * (target.y - start.y)
    y := (start.y + target.y) / 2 + o * (target.x - start.x) }

/-- Modelled from the spec: quadratic Bézier evaluation
`(1-u)²·p0 + 2u(1-u)·p1 + u²·p2`. -/
def bezier2 (p0 p1 p2 : Point) (u : ℚ) : Point :=
  { x := (1 - u) * (1 - u) * p0.x + 2 * u * (1 - u) * p1.x + u * u * p2.x
    y := (1 - u) * (1 - u) * p0.y + 2 * u * (1 - u) * p1.y + u * u * p2.y }

/-- Modelled from the spec (§4.2 steps 4-5): the i-th of the n+1 samples
— the Bézier value at `u = i/n`, with the evaluations at `u = 0` and
`u = 1` special-cased to return the literal start/target points, and the
timing model mapping `u` to the sample's `tOffset`. -/
def sampleAt (start target cp : Point) (n i : ℕ) (duration : ℚ) : PathSample :=
  { position :=
      if i = 0 then start
      else if i = n then target
      else bezier2 start cp target ((i : ℚ) / (n : ℚ))
    tOffset := timingMap ((i : ℚ) / (n : ℚ)) duration }

/-- Modelled from the spec (§4.2 step 4): the sample list at n+1 evenly
spaced parameter values `u ∈ [0,1]`. -/
def pathSamples (start target cp : Point) (n : ℕ) (duration : ℚ) :
    List PathSample :=
  (List.range (n + 1)).map (fun i => sampleAt start target cp n i duration)

/-- Modelled from the spec (§4.2): the Bézier Path Generator.  Inputs:
start (read from the Tracker), target, requested duration, the
straight-line distance `d` (kept symbolic, since a square root is
irrational), the `pixelsPerSample` density, the `minSamples` and
`maxSamples` bounds, and the sampled perpendicular-offset fraction `o`
(see `controlPoint`).  Step 1 rejects a degenerate motion — start equal
to target with a positive requested duration — with `DegenerateMotion`
before producing any sample; otherwise the timed samples are
returned. -/
def generatePath (start target : Point) (duration d pps : ℚ)
    (minSamples maxSamples : ℕ) (o : ℚ) :
    Except MotionError (List PathSample) :=
  if start = target ∧ 0 < duration then .error .degenerateMotion
  else .ok (pathSamples start target (controlPoint start target o)
      (sampleCount d pps minSamples maxSamples) duration)

/-- Modelled from the spec (§3): a key event as injected by the backend
— keydown or keyup of a character key. -/
inductive KeyEvent where
  | keydown (key : Char)
  | keyup (key : Char)
deriving DecidableEq

/-- Modelled from the spec (§6): `keyPress(keycode)` — press then
release, two key events in order. -/
def keyPress (key : Char) : List KeyEvent := [.keydown key, .keyup key]

/-- Modelled from the spec (§6): `typeText` decomposes its text into
per-character `keyPress` calls enqueued in order through the single
Dispatcher queue; the value is the ordered stream of dispatched key
events. -/
def typeTextEvents : List Char → List KeyEvent
  | [] => []
  | c :: cs => keyPress c ++ typeTextEvents cs

/-- The event stream of `typeText(text, …)`. -/
def typeText (text : String) : List KeyEvent := typeTextEvents text.data

/-! ## Helper lemmas about the modelled engine -/

theorem sampleCount_ge_min (d pps : ℚ) (minSamples maxSamples : ℕ) :
    minSamples ≤ sampleCount d pps minSamples maxSamples :=
  Nat.le_max_left _ _

theorem pathSamples_length (start target cp : Point) (n : ℕ) (duration : ℚ) :
    (pathSamples start target cp n duration).length = n + 1 := by
  simp [pathSamples]

theorem pathSamples_head (start target cp : Point) (n : ℕ) (duration : ℚ) :
    (pathSamples start target cp n duration).head? =
      some (sampleAt start target cp n 0 duration) := by
  unfold pathSamples
  rw [List.range_succ_eq_map]
  rfl

theorem pathSamples_getLast (start target cp : Point) (n : ℕ) (duration : ℚ) :
    (pathSamples start target cp n duration).getLast? =
      some (sampleAt start target cp n n duration) := by
  unfold pathSamples
  rw [List.range_succ, List.map_append]
  exact List.getLast?_concat _

theorem generatePath_ok (start target : Point) (duration d pps : ℚ)
    (minSamples maxSamples : ℕ) (o : ℚ)
    (hvalid : ¬(start = target ∧ 0 < duration)) :
    generatePath start target duration d pps minSamples maxSamples o =
      .ok (pathSamples start target (controlPoint start target o)
        (sampleCount d pps minSamples maxSamples) duration) := by
  unfold generatePath
  rw [if_neg hvalid]

/-! ## Theorems for the engine claims -/

/-- C4: the tracker's `commit(p)` fails with `InvalidCoordinate` when
either coordinate of `p` is NaN or an infinity (non-finite), and
succeeds — the stored state becoming exactly `p` — for every finite
`p`. -/
theorem commit_spec (p : RawPoint) :
    ((p.x.isFinite = false ∨ p.y.isFinite = false) →
      commit p = .error .invalidCoordinate) ∧
    (p.x.isFinite = true → p.y.isFinite = true → commit p = .ok p) := by
  constructor
  · intro h
    unfold commit
    rcases h with h | h <;> simp [h]
  · intro hx hy
    unfold commit
    simp [hx, hy]

/-- C4 witness: a NaN coordinate is rejected; a finite point is stored. -/
theorem commit_spec_witness :
    commit ⟨.nan, .finite 0⟩ = .error .invalidCoordinate ∧
    commit ⟨.finite 1, .finite 2⟩ = .ok ⟨.finite 1, .finite 2⟩ :=
  ⟨(commit_spec ⟨.nan, .finite 0⟩).1 (Or.inl rfl),
   (commit_spec ⟨.finite 1, .finite 2⟩).2 rfl rfl⟩

/-- C5: path generation fails with `DegenerateMotion` whenever the start
point equals the target point and a positive duration is requested; the
error is the generator's own (synchronous) result, produced before any
sample exists to dispatch. -/
theorem generatePath_degenerate (start target : Point) (duration d pps : ℚ)
    (minSamples maxSamples : ℕ) (o : ℚ)
    (heq : start = target) (hdur : 0 < duration) :
    generatePath start target duration d pps minSamples maxSamples o =
      .error .degenerateMotion := by
  unfold generatePath
  rw [if_pos ⟨heq, hdur⟩]

/-- C5 witness: a zero-distance move with duration 5 is rejected. -/
theorem generatePath_degenerate_witness :
    generatePath ⟨1, 2⟩ ⟨1, 2⟩ 5 0 1 10 200 0 = .error .degenerateMotion :=
  generatePath_degenerate ⟨1, 2⟩ ⟨1, 2⟩ 5 0 1 10 200 0 rfl (by norm_num)

/-- C7: `typeText "ab"` produces exactly the 4 key events keydown(a),
keyup(a), keydown(b), keyup(b), in that order; and in general `typeText`
is the in-order concatenation of the per-character `keyPress` event
pairs of its text. -/
theorem typeText_spec :
    typeText "ab" = [.keydown 'a', .keyup 'a', .keydown 'b', .keyup 'b'] ∧
    ∀ text : String, typeText text = text.data.flatMap keyPress := by
  constructor
  · rfl
  · intro text
    show typeTextEvents text.data = _
    induction text.data with
    | nil => rfl
    | cons c cs ih => simp [typeTextEvents, ih]

/-- C2: for every start/target pair the generator accepts, the produced
Path's first sample position is exactly the start point and its last
sample position is exactly the target point (the `u = 0` / `u = 1`
evaluations return the literal endpoints, so equality is exact — in the
float64 reading, bit-for-bit). -/
theorem generatePath_endpoints (start target : Point) (duration d pps : ℚ)
    (minSamples maxSamples : ℕ) (o : ℚ)
    (hmin : 0 < minSamples) (hvalid : ¬(start = target ∧ 0 < duration)) :
    ∃ path, generatePath start target duration d pps minSamples maxSamples o = .ok path ∧
      path.head?.map PathSample.position = some start ∧
      path.getLast?.map PathSample.position = some target := by
  refine ⟨_, generatePath_ok start target duration d pps minSamples maxSamples o hvalid,
    ?_, ?_⟩
  · rw [pathSamples_head]
    rfl
  · rw [pathSamples_getLast]
    have hn : sampleCount d pps minSamples maxSamples ≠ 0 :=
      (Nat.lt_of_lt_of_le hmin (sampleCount_ge_min d pps minSamples maxSamples)).ne.symm
    simp [sampleAt, hn]

/-- C2 witness: a concrete 10-pixel horizontal move. -/
theorem generatePath_endpoints_witness :
    ∃ path, generatePath ⟨0, 0⟩ ⟨10, 0⟩ 1 10 1 2 5 0 = .ok path ∧
      path.head?.map PathSample.position = some ⟨0, 0⟩ ∧
      path.getLast?.map PathSample.position = some ⟨10, 0⟩ :=
  generatePath_endpoints ⟨0, 0⟩ ⟨10, 0⟩ 1 10 1 2 5 0 (by norm_num)
    (fun h => absurd (congrArg Point.x h.1) (by norm_num))

theorem smoothstep_strict_mono (a b : ℚ) (ha : 0 ≤ a) (hab : a < b) (hb : b ≤ 1) :
    smoothstep a < smoothstep b := by
  have ha1 : a < 1 := lt_of_lt_of_le hab hb
  have hb0 : 0 < b := lt_of_le_of_lt ha hab
  have h1 : 0 < b - a := sub_pos.mpr hab
  have p1 : 0 ≤ (b - a) * (a * (1 - a)) :=
    mul_nonneg h1.le (mul_nonneg ha (by linarith))
  have p2 : 0 ≤ (b - a) * (b * (1 - b)) :=
    mul_nonneg h1.le (mul_nonneg hb0.le (by linarith))
  have p3 : 0 ≤ (b - a) * (a * (1 - b)) :=
    mul_nonneg h1.le (mul_nonneg ha (by linarith))
  have p4 : 0 < (b - a) * (b * (1 - a)) :=
    mul_pos h1 (mul_pos hb0 (by linarith))
  unfold smoothstep
  nlinarith [p1, p2, p3, p4]

theorem pathSamples_tOffset_strict (start target cp : Point) (n : ℕ) (duration : ℚ)
    (hn : 0 < n) (hdur : 0 < duration) :
    (pathSamples start target cp n duration).Pairwise
      (fun a b => a.tOffset < b.tOffset) := by
  have hnq : (0 : ℚ) < (n : ℚ) := by exact_mod_cast hn
  unfold pathSamples
  rw [List.pairwise_iff_getElem]
  intro i j hi hj hij
  simp only [List.length_map, List.length_range] at hi hj
  simp only [List.getElem_map, List.getElem_range]
  show (sampleAt start target cp n i duration).tOffset <
    (sampleAt start target cp n j duration).tOffset
  unfold sampleAt timingMap
  dsimp only
  refine mul_lt_mul_of_pos_left ?_ hdur
  refine smoothstep_strict_mono _ _ ?_ ?_ ?_
  · positivity
  · rw [div_lt_div_iff_of_pos_right hnq]
    exact_mod_cast hij
  · rw [div_le_one hnq]
    exact_mod_cast Nat.lt_succ_iff.mp hj

theorem pathSamples_last_tOffset (start target cp : Point) (n : ℕ) (duration : ℚ)
    (hn : 0 < n) :
    ((pathSamples start target cp n duration).getLast?).map PathSample.tOffset =
      some duration := by
  rw [pathSamples_getLast]
  have hne : (n : ℚ) ≠ 0 := Nat.cast_ne_zero.mpr hn.ne.symm
  simp only [sampleAt, timingMap, smoothstep, Option.map_some, div_self hne]
  norm_num

/-- C3: every generated Path (for a positive requested duration) has
strictly increasing `tOffset` values, and the last sample's `tOffset`
equals the requested duration exactly. -/
theorem generatePath_timing (start target : Point) (duration d pps : ℚ)
    (minSamples maxSamples : ℕ) (o : ℚ)
    (hmin : 0 < minSamples) (hdur : 0 < duration) (hne : start ≠ target) :
    ∃ path, generatePath start target duration d pps minSamples maxSamples o = .ok path ∧
      path.Pairwise (fun a b => a.tOffset < b.tOffset) ∧
      path.getLast?.map PathSample.tOffset = some duration := by
  have hn : 0 < sampleCount d pps minSamples maxSamples :=
    Nat.lt_of_lt_of_le hmin (sampleCount_ge_min d pps minSamples maxSamples)
  refine ⟨_, generatePath_ok start target duration d pps minSamples maxSamples o
      (fun h => hne h.1), ?_, ?_⟩
  · exact pathSamples_tOffset_strict _ _ _ _ _ hn hdur
  · exact pathSamples_last_tOffset _ _ _ _ _ hn

/-- C3 witness: a concrete 2-second move over distance 5. -/
theorem generatePath_timing_witness :
    ∃ path, generatePath ⟨0, 0⟩ ⟨3, 4⟩ 2 5 1 2 8 (1/10) = .ok path ∧
      path.Pairwise (fun a b => a.tOffset < b.tOffset) ∧
      path.getLast?.map PathSample.tOffset = some 2 :=
  generatePath_timing ⟨0, 0⟩ ⟨3, 4⟩ 2 5 1 2 8 (1/10) (by norm_num) (by norm_num)
    (fun h => absurd (congrArg Point.x h) (by norm_num))

/-- C6: for curviness = 0 (which forces the sampled offset to 0), every
sample of the generated Path lies on the straight segment from start to
target — exactly, which implies collinearity within any floating-point
epsilon. -/
theorem generatePath_collinear (start target : Point) (duration d pps : ℚ)
    (minSamples maxSamples : ℕ) (curviness o : ℚ)
    (hcurv : curviness = 0) (ho : |o| ≤ curviness)
    (hvalid : ¬(start = target ∧ 0 < duration)) :
    ∃ path, generatePath start target duration d pps minSamples maxSamples o = .ok path ∧
      ∀ s ∈ path, ∃ u : ℚ, 0 ≤ u ∧ u ≤ 1 ∧
        s.position.x = start.x + u * (target.x - start.x) ∧
        s.position.y = start.y + u * (target.y - start.y) := by
  have ho0 : o = 0 := abs_eq_zero.mp (le_antisymm (hcurv ▸ ho) (abs_nonneg o))
  subst ho0
  refine ⟨_, generatePath_ok start target duration d pps minSamples maxSamples 0 hvalid, ?_⟩
  intro s hs
  unfold pathSamples at hs
  rw [List.mem_map] at hs
  obtain ⟨i, hi, rfl⟩ := hs
  rw [List.mem_range] at hi
  by_cases h0 : i = 0
  · exact ⟨0, le_refl 0, by norm_num, by simp [sampleAt, h0], by simp [sampleAt, h0]⟩
  by_cases hlast : i = sampleCount d pps minSamples maxSamples
  · subst hlast
    refine ⟨1, by norm_num, le_refl 1, ?_, ?_⟩ <;>
      simp [sampleAt, h0]
  have hnpos : 0 < sampleCount d pps minSamples maxSamples := by
    rcases Nat.eq_zero_or_pos (sampleCount d pps minSamples maxSamples) with h | h
    · rw [h] at hi
      omega
    · exact h
  have hnq : (0 : ℚ) < (sampleCount d pps minSamples maxSamples : ℚ) := by
    exact_mod_cast hnpos
  refine ⟨(i : ℚ) / (sampleCount d pps minSamples maxSamples : ℚ),
    by positivity, ?_, ?_, ?_⟩
  · rw [div_le_one hnq]
    exact_mod_cast Nat.lt_succ_iff.mp hi
  · simp [sampleAt, h0, hlast, bezier2, controlPoint]
    ring
  · simp [sampleAt, h0, hlast, bezier2, controlPoint]
    ring

/-- C6 witness: a concrete straight move with zero curviness. -/
theorem generatePath_collinear_witness :
    ∃ path, generatePath ⟨0, 0⟩ ⟨4, 2⟩ 1 5 1 1 3 0 = .ok path ∧
      ∀ s ∈ path, ∃ u : ℚ, 0 ≤ u ∧ u ≤ 1 ∧
        s.position.x = 0 + u * (4 - 0) ∧
        s.position.y = 0 + u * (2 - 0) :=
  generatePath_collinear ⟨0, 0⟩ ⟨4, 2⟩ 1 5 1 1 3 0 0 rfl (by simp)
    (fun h => absurd (congrArg Point.x h.1) (by norm_num))
